import Mathlib

set_option maxHeartbeats 1000000
set_option maxRecDepth 4000

/-!
Shallow embedding of `src/pdf_image_remover.py` (a PDF image-removal tool).

The embedding translates the pure computational core of the program:

* the QR gate `is_qr_code` and the per-image classifier `_analyze_single_image_ret`;
* the page-chunk scanner `_process_page_chunk_ret` that builds a per-chunk
  registry slice (page-index sets, placements, byte payloads);
* the aggregator `AnalysisRunner._aggregate_chunk_data` that merges slices;
* the automatic batch loop `MainApp._auto_next` / `_on_result_auto` / `_on_error`;
* the save routine `PdfImageProcessor.save_with_deletions`.

External collaborators (PyMuPDF, PIL, pyzbar) are modelled as explicit function
parameters: `decode_dims` stands for decoding an image's pixel dimensions with
PIL (`Option.none` models a decode exception), `detect_codes` stands for the
pyzbar barcode scan (`Option.none` models a raised exception, `some n` means
`n` codes found), and a document's `extract` field stands for
`doc.extract_image(xref).get("image")` (`none` models an extraction failure,
`some []` models falsy empty bytes).  Python floats are modelled as rationals;
image bytes are modelled as `List Nat`.
-/

/-- Classification outcome. The source returns the strings 二维码 (QR),
重复图片 (水印) (repeated/watermark) and 边角图片 (corner image); we use a closed
enumeration. -/
inductive Category
  | qr
  | repeated
  | corner
  deriving DecidableEq

/-- The rules dict passed to `_analyze_single_image_ret` (keys qr, repeated,
corners). -/
structure RuleConfig where
  qr : Bool
  repeated : Bool
  corners : Bool
  deriving DecidableEq

/-- One placement record, as built by `_process_page_chunk_ret`:
`{'page_num': page_num, 'bbox': (x0, y0, x1, y1), 'page_size': (page_w, page_h)}`. -/
structure Placement where
  page_num : Nat
  x0 : ℚ
  y0 : ℚ
  x1 : ℚ
  y1 : ℚ
  page_w : ℚ
  page_h : ℚ
  deriving DecidableEq

/-- One phase-2 task dict `{'xref': xref, 'bytes': img_bytes, 'info': info}`
where `info` holds the aggregated page-index set and placement list. -/
structure ImageTask where
  xref : Nat
  image_bytes : List Nat
  pages : Finset Nat
  placements : List Placement

/-- `is_qr_code(image_bytes)` from the source: open the image (any exception
yields `False`, modelled by `decode_dims` returning `none`); reject if
`width < 30 or height < 30`, if `height == 0`, or if the aspect ratio
`width / height` is not strictly between 0.9 and 1.1; otherwise run the
barcode scan and report whether at least one code was found (a raised
exception in the scan, modelled by `detect_codes` returning `none`, also
yields `False`). -/
def is_qr_code (decode_dims : List Nat → Option (Nat × Nat))
    (detect_codes : List Nat → Option Nat) (image_bytes : List Nat) : Bool :=
  match decode_dims image_bytes with
  | none => false
  | some (width, height) =>
    if width < 30 ∨ height < 30 then false
    else if height = 0 then false
    else if ¬ ((9 : ℚ) / 10 < (width : ℚ) / (height : ℚ) ∧
        (width : ℚ) / (height : ℚ) < (11 : ℚ) / 10) then false
    else
      match detect_codes image_bytes with
      | none => false
      | some n => decide (0 < n)

/-- First guard of `_analyze_single_image_ret`:
`rules.get('qr') and is_qr_code(img_bytes)`. -/
def qr_rule_hit (decode_dims : List Nat → Option (Nat × Nat))
    (detect_codes : List Nat → Option Nat) (rules : RuleConfig)
    (task : ImageTask) : Bool :=
  rules.qr && is_qr_code decode_dims detect_codes task.image_bytes

/-- Second guard of `_analyze_single_image_ret`:
`rules.get('repeated') and total_pages > 1 and len(pages) >= total_pages * 0.7`. -/
def repeated_rule_hit (rules : RuleConfig) (task : ImageTask)
    (total_pages : Nat) : Bool :=
  rules.repeated && decide (1 < total_pages) &&
    decide ((total_pages : ℚ) * (7 / 10) ≤ (task.pages.card : ℚ))

/-- The per-placement corner test of `_analyze_single_image_ret`:
with `margin_x = page_w * 0.25` and `margin_y = page_h * 0.15`, the placement
hits when `(x1 < margin_x and y1 < margin_y)` or
`(x0 > page_w - margin_x and y1 < margin_y)`. -/
def cornerHit (p : Placement) : Bool :=
  decide ((p.x1 < p.page_w * (25 / 100) ∧ p.y1 < p.page_h * (15 / 100)) ∨
    (p.x0 > p.page_w - p.page_w * (25 / 100) ∧ p.y1 < p.page_h * (15 / 100)))

/-- Third guard of `_analyze_single_image_ret`: `rules.get('corners')` and some
placement in `info['placements']` passes the corner test. -/
def corners_rule_hit (rules : RuleConfig) (task : ImageTask) : Bool :=
  rules.corners && task.placements.any cornerHit

/-- `_analyze_single_image_ret(task, rules, total_pages)`: evaluate the three
rules in source order (QR, then repeated, then corners) and return the first
match; `none` models the `return None` fall-through.  The `try/except` wrapper
of the source surfaces only through the `Option`-valued collaborators
`decode_dims` and `detect_codes`; the function itself is total. -/
def analyze_single_image_ret (decode_dims : List Nat → Option (Nat × Nat))
    (detect_codes : List Nat → Option Nat) (rules : RuleConfig)
    (task : ImageTask) (total_pages : Nat) : Option Category :=
  if qr_rule_hit decode_dims detect_codes rules task then some Category.qr
  else if repeated_rule_hit rules task total_pages then some Category.repeated
  else if corners_rule_hit rules task then some Category.corner
  else none

/-- One entry of `page.get_image_info(xrefs=True)`: an image reference plus the
bounding box of this occurrence on the page. -/
structure PageImage where
  xref : Nat
  x0 : ℚ
  y0 : ℚ
  x1 : ℚ
  y1 : ℚ
  deriving DecidableEq

/-- One page of an open document: its image-info entries and `page.rect`
width/height. -/
structure PdfPage where
  images : List PageImage
  width : ℚ
  height : ℚ

/-- An open document: its pages plus the byte-extraction collaborator
`doc.extract_image(xref).get("image")`; `none` models a raised exception and
`some []` models falsy empty bytes. -/
structure PdfDoc where
  pages : List PdfPage
  extract : Nat → Option (List Nat)

/-- The registry accumulated by `AnalysisRunner` (and, for one chunk, the
slice built by `_process_page_chunk_ret`): `image_map[xref]['pages']`,
`image_map[xref]['placements']` and the separate `image_bytes_map`.  The
`defaultdict` semantics is modelled by total functions whose default values
are the empty set, the empty list, and `none`. -/
structure Registry where
  pages : Nat → Finset Nat
  placements : Nat → List Placement
  image_bytes : Nat → Option (List Nat)

/-- The freshly reset registry state (`_reset_state`): empty maps. -/
def emptyRegistry : Registry :=
  { pages := fun _ => ∅
    placements := fun _ => []
    image_bytes := fun _ => none }

/-- The body of the inner loop of `_process_page_chunk_ret` for one image-info
entry `img` on page `page_num`: skip `xref == 0`; skip on extraction failure,
empty bytes, decode failure, or a degenerate size
(`min(width, height) <= 8 or (width <= 6 and height <= 6) or width * height <= 64`);
otherwise add the page index, append the placement, and store the bytes only
if the xref has no bytes yet in this chunk. -/
def scan_image_step (d : PdfDoc) (decode_dims : List Nat → Option (Nat × Nat))
    (page_num : Nat) (pg : PdfPage) (acc : Registry) (img : PageImage) :
    Registry :=
  if img.xref = 0 then acc
  else
    match d.extract img.xref with
    | none => acc
    | some img_bytes =>
      if img_bytes = [] then acc
      else
        match decode_dims img_bytes with
        | none => acc
        | some (width, height) =>
          if min width height ≤ 8 ∨ (width ≤ 6 ∧ height ≤ 6) ∨
              width * height ≤ 64 then acc
          else
            { pages := fun x =>
                if x = img.xref then insert page_num (acc.pages x)
                else acc.pages x
              placements := fun x =>
                if x = img.xref then
                  acc.placements x ++
                    [⟨page_num, img.x0, img.y0, img.x1, img.y1, pg.width, pg.height⟩]
                else acc.placements x
              image_bytes := fun x =>
                if x = img.xref then
                  match acc.image_bytes x with
                  | some b => some b
                  | none => some img_bytes
                else acc.image_bytes x }

/-- One iteration of the page loop of `_process_page_chunk_ret`:
`if page_num >= len(doc): continue`, else fold the image loop over
`page.get_image_info(xrefs=True)`. -/
def scan_page (d : PdfDoc) (decode_dims : List Nat → Option (Nat × Nat))
    (acc : Registry) (page_num : Nat) : Registry :=
  if h : page_num < d.pages.length then
    (d.pages.get ⟨page_num, h⟩).images.foldl
      (scan_image_step d decode_dims page_num (d.pages.get ⟨page_num, h⟩)) acc
  else acc

/-- `_process_page_chunk_ret(file_path, start_page, end_page)` (success path):
scan pages `start_page, ..., end_page - 1` into a fresh registry slice. -/
def process_page_chunk_ret (d : PdfDoc)
    (decode_dims : List Nat → Option (Nat × Nat))
    (start_page end_page : Nat) : Registry :=
  (List.range' start_page (end_page - start_page)).foldl
    (scan_page d decode_dims) emptyRegistry

/-- `AnalysisRunner._aggregate_chunk_data(map_chunk, bytes_chunk)`: for each
xref of the slice, union the page-index sets and extend the placement list;
then `self.image_bytes_map.update(bytes_chunk)`, under which the slice's byte
entries overwrite existing ones. -/
def aggregate_chunk_data (r s : Registry) : Registry :=
  { pages := fun x => r.pages x ∪ s.pages x
    placements := fun x => r.placements x ++ s.placements x
    image_bytes := fun x =>
      match s.image_bytes x with
      | some b => some b
      | none => r.image_bytes x }

/-- Generic preservation of a predicate along a left fold. -/
theorem foldl_preserve {α β : Type} {P : β → Prop} (f : β → α → β)
    (hf : ∀ b a, P b → P (f b a)) :
    ∀ (l : List α) (b : β), P b → P (l.foldl f b) := by
  intro l
  induction l with
  | nil => intro b hb; exact hb
  | cons a t ih => intro b hb; exact ih (f b a) (hf b a hb)

/-- The slice holds nothing at all for xref `x`. -/
def UntouchedAt (x : Nat) (r : Registry) : Prop :=
  r.pages x = ∅ ∧ r.placements x = [] ∧ r.image_bytes x = none

/-- If the bytes of xref `x` decode to a degenerate size, one image-loop
iteration never touches the slice entry of `x`. -/
theorem scan_image_step_untouched (d : PdfDoc)
    (decode_dims : List Nat → Option (Nat × Nat)) (page_num : Nat)
    (pg : PdfPage) (img : PageImage) (x : Nat) (w h : Nat) (b : List Nat)
    (hx : d.extract x = some b) (hdec : decode_dims b = some (w, h))
    (hdeg : min w h ≤ 8 ∨ (w ≤ 6 ∧ h ≤ 6) ∨ w * h ≤ 64) (acc : Registry)
    (hacc : UntouchedAt x acc) :
    UntouchedAt x (scan_image_step d decode_dims page_num pg acc img) := by
  unfold scan_image_step
  split
  · exact hacc
  next h0 =>
    split
    · exact hacc
    next bytes hE =>
      split
      · exact hacc
      next hb =>
        split
        · exact hacc
        next w' h' hD =>
          split
          · exact hacc
          next hdeg2 =>
            by_cases hex : x = img.xref
            · exfalso
              subst hex
              rw [hx] at hE
              injection hE with hbb
              subst hbb
              rw [hdec] at hD
              injection hD with hwh
              injection hwh with hw hh
              subst hw
              subst hh
              exact hdeg2 hdeg
            · obtain ⟨h1, h2, h3⟩ := hacc
              exact ⟨by simp [hex, h1], by simp [hex, h2], by simp [hex, h3]⟩

/-- A whole page scan never touches the entry of a degenerate image. -/
theorem scan_page_untouched (d : PdfDoc)
    (decode_dims : List Nat → Option (Nat × Nat)) (x : Nat) (w h : Nat)
    (b : List Nat) (hx : d.extract x = some b)
    (hdec : decode_dims b = some (w, h))
    (hdeg : min w h ≤ 8 ∨ (w ≤ 6 ∧ h ≤ 6) ∨ w * h ≤ 64) (acc : Registry)
    (page_num : Nat) (hacc : UntouchedAt x acc) :
    UntouchedAt x (scan_page d decode_dims acc page_num) := by
  unfold scan_page
  split
  · exact foldl_preserve _
      (fun r img hr =>
        scan_image_step_untouched d decode_dims page_num _ img x w h b hx hdec hdeg r hr)
      _ acc hacc
  · exact hacc

/-- C5: Degenerate-image filter.  For every document, decode collaborator and
page range, an image whose extracted bytes decode to dimensions with
`min(width, height) <= 8`, or `width <= 6 and height <= 6`, or
`width * height <= 64`, is never added to the partial registry slice returned
by `_process_page_chunk_ret`: its page-index set stays empty, its placement
list stays empty and no byte payload is stored for it, so it can never reach
classification. -/
theorem C5_degenerate_images_never_in_slice (d : PdfDoc)
    (decode_dims : List Nat → Option (Nat × Nat))
    (start_page end_page x w h : Nat) (b : List Nat)
    (hx : d.extract x = some b) (hdec : decode_dims b = some (w, h))
    (hdeg : min w h ≤ 8 ∨ (w ≤ 6 ∧ h ≤ 6) ∨ w * h ≤ 64) :
    (process_page_chunk_ret d decode_dims start_page end_page).pages x = ∅ ∧
    (process_page_chunk_ret d decode_dims start_page end_page).placements x = [] ∧
    (process_page_chunk_ret d decode_dims start_page end_page).image_bytes x = none := by
  exact foldl_preserve _
    (fun r page_num hr =>
      scan_page_untouched d decode_dims x w h b hx hdec hdeg r page_num hr)
    _ emptyRegistry ⟨rfl, rfl, rfl⟩

/-- A one-page document whose only image (xref 2) decodes to a degenerate
5-by-5 size. -/
def exDocTiny : PdfDoc :=
  { pages := [⟨[⟨2, 0, 0, 5, 5⟩], 100, 100⟩]
    extract := fun x => if x = 2 then some [3] else none }

/-- A decode collaborator that reports every byte payload as 5 by 5 pixels. -/
def exDimsTiny : List Nat → Option (Nat × Nat) := fun _ => some (5, 5)

/-- Witness for C5: scanning the concrete one-page document with the 5-by-5
image leaves xref 2 completely absent from the chunk slice. -/
theorem C5_witness :
    (process_page_chunk_ret exDocTiny exDimsTiny 0 1).pages 2 = ∅ ∧
    (process_page_chunk_ret exDocTiny exDimsTiny 0 1).placements 2 = [] ∧
    (process_page_chunk_ret exDocTiny exDimsTiny 0 1).image_bytes 2 = none :=
  C5_degenerate_images_never_in_slice exDocTiny exDimsTiny 0 1 2 5 5 [3]
    (by decide) rfl (by decide)

/-- All byte payloads stored in `r` agree with the extraction collaborator
`f`: whatever bytes the registry holds for an xref are exactly the bytes the
document yields for that xref. -/
def BytesFrom (f : Nat → Option (List Nat)) (r : Registry) : Prop :=
  ∀ x b, r.image_bytes x = some b → f x = some b

/-- Registries that agree on every page-index set and every byte payload and
whose placement lists agree up to reordering. -/
def RegEquiv (r s : Registry) : Prop :=
  (∀ x, r.pages x = s.pages x) ∧ (∀ x, r.image_bytes x = s.image_bytes x) ∧
    (∀ x, (r.placements x).Perm (s.placements x))

theorem RegEquiv.refl (r : Registry) : RegEquiv r r :=
  ⟨fun _ => rfl, fun _ => rfl, fun _ => List.Perm.refl _⟩

theorem RegEquiv.trans {r s t : Registry} (h1 : RegEquiv r s)
    (h2 : RegEquiv s t) : RegEquiv r t :=
  ⟨fun x => (h1.1 x).trans (h2.1 x), fun x => (h1.2.1 x).trans (h2.2.1 x),
    fun x => (h1.2.2 x).trans (h2.2.2 x)⟩

/-- Merging a slice preserves agreement of the byte payloads with `f`. -/
theorem BytesFrom.aggregate {f : Nat → Option (List Nat)} {r s : Registry}
    (hr : BytesFrom f r) (hs : BytesFrom f s) :
    BytesFrom f (aggregate_chunk_data r s) := by
  intro x b hb
  unfold aggregate_chunk_data at hb
  simp only at hb
  cases hsx : s.image_bytes x with
  | none => rw [hsx] at hb; exact hr x b hb
  | some c => rw [hsx] at hb; injection hb with hbc; subst hbc; exact hs x _ hsx

/-- Aggregation is congruent on the left with respect to `RegEquiv`. -/
theorem regEquiv_aggregate_left {r r' : Registry} (s : Registry)
    (h : RegEquiv r r') :
    RegEquiv (aggregate_chunk_data r s) (aggregate_chunk_data r' s) := by
  refine ⟨fun x => ?_, fun x => ?_, fun x => ?_⟩
  · unfold aggregate_chunk_data
    simp only
    rw [h.1 x]
  · unfold aggregate_chunk_data
    simp only
    rw [h.2.1 x]
  · unfold aggregate_chunk_data
    simp only
    exact (h.2.2 x).append_right _

/-- Folding the same slice list over `RegEquiv`-related accumulators yields
`RegEquiv`-related registries. -/
theorem regEquiv_foldl (l : List Registry) :
    ∀ {r r' : Registry}, RegEquiv r r' →
      RegEquiv (l.foldl aggregate_chunk_data r) (l.foldl aggregate_chunk_data r') := by
  induction l with
  | nil => intro r r' h; exact h
  | cons s t ih =>
    intro r r' h
    exact ih (regEquiv_aggregate_left s h)

/-- Exchanging the order of two merged slices.  The page-index unions commute,
the placement lists are permutations of each other, and the byte payloads
agree because every stored payload equals the document's extraction result for
that xref. -/
theorem regEquiv_aggregate_swap {f : Nat → Option (List Nat)} {r s t : Registry}
    (_hr : BytesFrom f r) (hs : BytesFrom f s) (ht : BytesFrom f t) :
    RegEquiv (aggregate_chunk_data (aggregate_chunk_data r s) t)
      (aggregate_chunk_data (aggregate_chunk_data r t) s) := by
  refine ⟨fun x => ?_, fun x => ?_, fun x => ?_⟩
  · unfold aggregate_chunk_data
    simp only
    exact Finset.union_right_comm _ _ _
  · unfold aggregate_chunk_data
    simp only
    cases hsx : s.image_bytes x with
    | none => cases htx : t.image_bytes x <;> simp
    | some bs =>
      cases htx : t.image_bytes x with
      | none => simp
      | some bt =>
        have h1 : f x = some bs := hs x bs hsx
        have h2 : f x = some bt := ht x bt htx
        rw [h1] at h2
        injection h2 with hb
        rw [hb]
  · unfold aggregate_chunk_data
    simp only
    rw [List.append_assoc, List.append_assoc]
    exact List.perm_append_comm.append_left _

/-- Folding a permuted list of slices whose byte payloads all come from the
same extraction collaborator yields a `RegEquiv`-equal registry. -/
theorem foldl_aggregate_perm (f : Nat → Option (List Nat))
    {l l' : List Registry} (hp : l.Perm l') :
    (∀ u ∈ l, BytesFrom f u) → ∀ r : Registry, BytesFrom f r →
      RegEquiv (l.foldl aggregate_chunk_data r)
        (l'.foldl aggregate_chunk_data r) := by
  induction hp with
  | nil => intro _ r _; exact RegEquiv.refl _
  | cons s p ih =>
    intro hmem r hr
    simp only [List.foldl_cons]
    exact ih (fun u hu => hmem u (List.mem_cons_of_mem _ hu))
      (aggregate_chunk_data r s)
      (hr.aggregate (hmem s (List.mem_cons_self _ _)))
  | swap s t u =>
    intro hmem r hr
    simp only [List.foldl_cons]
    have hs : BytesFrom f s := hmem s (by simp)
    have ht : BytesFrom f t := hmem t (by simp)
    exact regEquiv_foldl u (regEquiv_aggregate_swap hr ht hs)
  | trans p1 p2 ih1 ih2 =>
    intro hmem r hr
    exact (ih1 hmem r hr).trans
      (ih2 (fun u hu => hmem u (p1.mem_iff.mpr hu)) r hr)

/-- Every byte payload stored by one image-loop iteration is the document's
extraction result for that xref. -/
theorem scan_image_step_bytesFrom (d : PdfDoc)
    (decode_dims : List Nat → Option (Nat × Nat)) (page_num : Nat)
    (pg : PdfPage) (img : PageImage) (acc : Registry)
    (hacc : BytesFrom d.extract acc) :
    BytesFrom d.extract (scan_image_step d decode_dims page_num pg acc img) := by
  unfold scan_image_step
  split
  · exact hacc
  next h0 =>
    split
    · exact hacc
    next bytes hE =>
      split
      · exact hacc
      next hb =>
        split
        · exact hacc
        next w' h' hD =>
          split
          · exact hacc
          next hdeg2 =>
            intro x b hxb
            simp only at hxb
            by_cases hex : x = img.xref
            · rw [if_pos hex] at hxb
              cases hax : acc.image_bytes x with
              | some c =>
                rw [hax] at hxb
                injection hxb with hcb
                subst hcb
                exact hacc x _ hax
              | none =>
                rw [hax] at hxb
                injection hxb with hcb
                subst hcb
                rw [hex]
                exact hE
            · rw [if_neg hex] at hxb
              exact hacc x b hxb

/-- Every byte payload stored by one page scan is the document's extraction
result for that xref. -/
theorem scan_page_bytesFrom (d : PdfDoc)
    (decode_dims : List Nat → Option (Nat × Nat)) (acc : Registry)
    (page_num : Nat) (hacc : BytesFrom d.extract acc) :
    BytesFrom d.extract (scan_page d decode_dims acc page_num) := by
  unfold scan_page
  split
  · exact foldl_preserve _
      (fun r img hr => scan_image_step_bytesFrom d decode_dims page_num _ img r hr)
      _ acc hacc
  · exact hacc

/-- Every byte payload of a chunk slice is the document's extraction result
for that xref: chunk slices of one document can never disagree on bytes. -/
theorem process_page_chunk_bytesFrom (d : PdfDoc)
    (decode_dims : List Nat → Option (Nat × Nat)) (start_page end_page : Nat) :
    BytesFrom d.extract (process_page_chunk_ret d decode_dims start_page end_page) := by
  unfold process_page_chunk_ret
  exact foldl_preserve _
    (fun r page_num hr => scan_page_bytesFrom d decode_dims r page_num hr)
    _ emptyRegistry (fun x b hb => by simp [emptyRegistry] at hb)

/-- C1 (amended): Registry aggregation over chunk arrival order.  For every
document and every finite collection of partial registry slices produced by
page-chunk scans of that document, merging them with
`_aggregate_chunk_data` in any permutation of arrival order yields a final
registry with the same page-index set for every xref, the same byte payload
for every xref, and placement lists equal up to reordering; the placement
lists themselves need not be identical, because `list.extend` records the
placements in arrival order. -/
theorem C1_aggregation_perm_invariant (d : PdfDoc)
    (decode_dims : List Nat → Option (Nat × Nat)) (l l' : List Registry)
    (hperm : l.Perm l')
    (hscan : ∀ u ∈ l, ∃ p : Nat × Nat,
      u = process_page_chunk_ret d decode_dims p.1 p.2) :
    RegEquiv (l.foldl aggregate_chunk_data emptyRegistry)
      (l'.foldl aggregate_chunk_data emptyRegistry) := by
  refine foldl_aggregate_perm d.extract hperm ?_ emptyRegistry ?_
  · intro u hu
    obtain ⟨p, hp⟩ := hscan u hu
    rw [hp]
    exact process_page_chunk_bytesFrom d decode_dims p.1 p.2
  · intro x b hb
    simp [emptyRegistry] at hb

/-- A two-page document on which image xref 1 appears once per page, at two
different positions. -/
def exDocTwo : PdfDoc :=
  { pages := [⟨[⟨1, 0, 0, 10, 10⟩], 100, 100⟩, ⟨[⟨1, 5, 5, 15, 15⟩], 100, 100⟩]
    extract := fun x => if x = 1 then some [7] else none }

/-- A decode collaborator reporting every payload as a healthy 100 by 100. -/
def exDimsBig : List Nat → Option (Nat × Nat) := fun _ => some (100, 100)

/-- The chunk slice for page 0 of `exDocTwo`. -/
def exSliceA : Registry := process_page_chunk_ret exDocTwo exDimsBig 0 1

/-- The chunk slice for page 1 of `exDocTwo`. -/
def exSliceB : Registry := process_page_chunk_ret exDocTwo exDimsBig 1 2

/-- Counterexample to C1 as stated: merging the two chunk slices of
`exDocTwo` in the two possible arrival orders does not yield an identical
final registry — the placement lists of xref 1 differ (they are reversals of
each other), so the aggregation result is not literally order-independent. -/
theorem C1_counterexample :
    ([exSliceA, exSliceB].foldl aggregate_chunk_data emptyRegistry).placements 1 ≠
      ([exSliceB, exSliceA].foldl aggregate_chunk_data emptyRegistry).placements 1 := by
  decide

/-- Witness for C1: the amended theorem applied to the two chunk slices of
`exDocTwo` in swapped arrival order. -/
theorem C1_witness :
    RegEquiv ([exSliceA, exSliceB].foldl aggregate_chunk_data emptyRegistry)
      ([exSliceB, exSliceA].foldl aggregate_chunk_data emptyRegistry) := by
  refine C1_aggregation_perm_invariant exDocTwo exDimsBig _ _
    (List.Perm.swap exSliceB exSliceA []) ?_
  intro u hu
  rcases List.mem_cons.mp hu with h | h
  · exact ⟨(0, 1), by rw [h]; rfl⟩
  · rcases List.mem_cons.mp h with h2 | h2
    · exact ⟨(1, 2), by rw [h2]; rfl⟩
    · exact absurd h2 (List.not_mem_nil u)

/-- A one-page document in which xref 1 resolves to different bytes (`[9]`)
than it does in `exDocTwo` (`[7]`). -/
def exDocOther : PdfDoc :=
  { pages := [⟨[⟨1, 0, 0, 10, 10⟩], 100, 100⟩]
    extract := fun x => if x = 1 then some [9] else none }

/-- The chunk slice for page 0 of `exDocOther`: it carries bytes `[9]` for
xref 1. -/
def exSliceC : Registry := process_page_chunk_ret exDocOther exDimsBig 0 1

/-- Counterexample to C2 as stated: a merge step first sets the byte payload
of xref 1 to `[7]`; a later merge step carrying bytes `[9]` for the same xref
does not leave the stored bytes unchanged — `image_bytes_map.update` replaces
them, so the final payload is `[9]`, not the first occurrence `[7]`. -/
theorem C2_counterexample :
    (aggregate_chunk_data emptyRegistry exSliceA).image_bytes 1 = some [7] ∧
    exSliceC.image_bytes 1 = some [9] ∧
    (aggregate_chunk_data (aggregate_chunk_data emptyRegistry exSliceA)
      exSliceC).image_bytes 1 ≠ some [7] := by
  refine ⟨by decide, by decide, by decide⟩

/-- C2 (amended): byte payloads under `_aggregate_chunk_data` are
last-occurrence-wins, not first-occurrence-wins: (1) whenever the incoming
slice carries bytes for an xref, the merged registry holds exactly the
slice's bytes, overwriting any previously stored payload; (2) nevertheless,
within one run all slices are page-chunk scans of the same document, whose
stored payloads always equal that document's extraction result
(`_process_page_chunk_ret` stores a chunk's first extraction, lines 119-120),
so a payload already stored from such slices never changes value when a
further chunk slice of the same document is merged. -/
theorem C2_bytes_last_occurrence_wins :
    (∀ (r s : Registry) (x : Nat) (b : List Nat), s.image_bytes x = some b →
      (aggregate_chunk_data r s).image_bytes x = some b) ∧
    (∀ (d : PdfDoc) (decode_dims : List Nat → Option (Nat × Nat))
      (r : Registry) (start_page end_page x : Nat) (b : List Nat),
      BytesFrom d.extract r → r.image_bytes x = some b →
      (aggregate_chunk_data r
        (process_page_chunk_ret d decode_dims start_page end_page)).image_bytes x
        = some b) := by
  constructor
  · intro r s x b hb
    unfold aggregate_chunk_data
    simp only
    rw [hb]
  · intro d decode_dims r start_page end_page x b hr hb
    unfold aggregate_chunk_data
    simp only
    cases hc : (process_page_chunk_ret d decode_dims start_page end_page).image_bytes x with
    | none => exact hb
    | some c =>
      have h1 : d.extract x = some c :=
        process_page_chunk_bytesFrom d decode_dims start_page end_page x c hc
      have h2 : d.extract x = some b := hr x b hb
      rw [h1] at h2
      injection h2 with h3
      rw [h3]

/-- Witness for C2: part (1) applied to the overwrite pair of the
counterexample, and part (2) applied to the slice `exSliceA` of `exDocTwo`
merged with the chunk slice of pages 1-2 of the same document: the stored
payload `[7]` of xref 1 survives. -/
theorem C2_witness :
    (aggregate_chunk_data (aggregate_chunk_data emptyRegistry exSliceA)
      exSliceC).image_bytes 1 = some [9] ∧
    (aggregate_chunk_data exSliceA
      (process_page_chunk_ret exDocTwo exDimsBig 1 2)).image_bytes 1 = some [7] :=
  ⟨C2_bytes_last_occurrence_wins.1 _ exSliceC 1 [9] (by decide),
    C2_bytes_last_occurrence_wins.2 exDocTwo exDimsBig exSliceA 1 2 1 [7]
      (process_page_chunk_bytesFrom exDocTwo exDimsBig 0 1) (by decide)⟩

/-- C3: Classification is first-match with fixed priority QR, then Repeated,
then Corner.  (1) The classifier returns at most one category for any input;
(2) an image that satisfies both the active repeated rule and the active
corner rule is never reported under Corner, and — whenever the QR rule does
not match first — it is reported under Repeated; (3) an image whose bytes
pass `is_qr_code` (a decodable barcode passing the size and aspect gates) is
classified QR whenever the qr rule is active, regardless of the repeated and
corners settings. -/
theorem C3_first_match_priority (decode_dims : List Nat → Option (Nat × Nat))
    (detect_codes : List Nat → Option Nat) (rules : RuleConfig)
    (task : ImageTask) (total_pages : Nat) :
    (∀ c c' : Category,
      analyze_single_image_ret decode_dims detect_codes rules task total_pages = some c →
      analyze_single_image_ret decode_dims detect_codes rules task total_pages = some c' →
      c = c') ∧
    (repeated_rule_hit rules task total_pages = true →
      corners_rule_hit rules task = true →
      analyze_single_image_ret decode_dims detect_codes rules task total_pages ≠
        some Category.corner ∧
      (qr_rule_hit decode_dims detect_codes rules task = false →
        analyze_single_image_ret decode_dims detect_codes rules task total_pages =
          some Category.repeated)) ∧
    (rules.qr = true → is_qr_code decode_dims detect_codes task.image_bytes = true →
      analyze_single_image_ret decode_dims detect_codes rules task total_pages =
        some Category.qr) := by
  refine ⟨?_, ?_, ?_⟩
  · intro c c' h1 h2
    rw [h1] at h2
    injection h2
  · intro hrep hcor
    constructor
    · unfold analyze_single_image_ret
      by_cases hq : qr_rule_hit decode_dims detect_codes rules task
      · simp [hq]
      · simp [hq, hrep]
    · intro hq
      unfold analyze_single_image_ret
      simp [hq, hrep]
  · intro hqr hcode
    unfold analyze_single_image_ret
    have hq : qr_rule_hit decode_dims detect_codes rules task = true := by
      unfold qr_rule_hit
      rw [hqr, hcode]
      rfl
    simp [hq]

/-- A decode collaborator that always fails (every decode raises). -/
def exDimsFail : List Nat → Option (Nat × Nat) := fun _ => none

/-- A barcode collaborator that always finds exactly one code. -/
def exDetOne : List Nat → Option Nat := fun _ => some 1

/-- A decode collaborator that reports every payload as 40 by 40 pixels. -/
def exDims40 : List Nat → Option (Nat × Nat) := fun _ => some (40, 40)

/-- All three rules active. -/
def exRulesAll : RuleConfig := ⟨true, true, true⟩

/-- An image task appearing on 8 pages whose single placement has bbox
(0, 0, 50, 50) on a 600 by 800 page. -/
def exTaskEight : ImageTask :=
  { xref := 1
    image_bytes := [7]
    pages := {0, 1, 2, 3, 4, 5, 6, 7}
    placements := [⟨0, 0, 0, 50, 50, 600, 800⟩] }

/-- The repeated rule fires for `exTaskEight` on a 10-page document:
8 pages is at least 70 percent of 10. -/
theorem exTaskEight_repeated_hit : repeated_rule_hit exRulesAll exTaskEight 10 = true := by
  have hc : (exTaskEight.pages.card : ℚ) = 8 := by rfl
  simp [repeated_rule_hit, exRulesAll, hc]
  norm_num

/-- The corner rule fires for `exTaskEight`: bbox (0, 0, 50, 50) sits inside
the 150 by 120 top-left margin region of a 600 by 800 page. -/
theorem exTaskEight_corners_hit : corners_rule_hit exRulesAll exTaskEight = true := by
  simp only [corners_rule_hit, exRulesAll, exTaskEight, List.any_cons, List.any_nil,
    Bool.or_false, Bool.true_and]
  simp only [cornerHit, decide_eq_true_eq]
  left
  norm_num

/-- With a 40-by-40 decode and one detected code, `is_qr_code` accepts. -/
theorem exDims40_is_qr : is_qr_code exDims40 exDetOne exTaskEight.image_bytes = true := by
  simp only [is_qr_code, exDims40, exDetOne]
  norm_num

/-- With a failing decode, the QR rule cannot fire. -/
theorem exDimsFail_no_qr :
    qr_rule_hit exDimsFail exDetOne exRulesAll exTaskEight = false := by
  simp [qr_rule_hit, is_qr_code, exDimsFail]

/-- Witness for C3: with all rules active on a 10-page document, the task
`exTaskEight` satisfies both the repeated rule (8 of 10 pages) and the corner
rule, the QR decode fails, and the classifier reports Repeated, not Corner;
and with a decodable 40-by-40 barcode the same task is classified QR. -/
theorem C3_witness :
    analyze_single_image_ret exDimsFail exDetOne exRulesAll exTaskEight 10 ≠
      some Category.corner ∧
    analyze_single_image_ret exDimsFail exDetOne exRulesAll exTaskEight 10 =
      some Category.repeated ∧
    analyze_single_image_ret exDims40 exDetOne exRulesAll exTaskEight 10 =
      some Category.qr := by
  have h := C3_first_match_priority exDimsFail exDetOne exRulesAll exTaskEight 10
  have h2 := h.2.1 exTaskEight_repeated_hit exTaskEight_corners_hit
  exact ⟨h2.1, h2.2 exDimsFail_no_qr,
    (C3_first_match_priority exDims40 exDetOne exRulesAll exTaskEight 10).2.2
      rfl exDims40_is_qr⟩

/-- The classifier answers QR exactly when the QR guard fires. -/
theorem analyze_eq_qr_iff (decode_dims : List Nat → Option (Nat × Nat))
    (detect_codes : List Nat → Option Nat) (rules : RuleConfig)
    (task : ImageTask) (total_pages : Nat) :
    analyze_single_image_ret decode_dims detect_codes rules task total_pages =
      some Category.qr ↔
    qr_rule_hit decode_dims detect_codes rules task = true := by
  unfold analyze_single_image_ret
  by_cases hq : qr_rule_hit decode_dims detect_codes rules task
  · simp [hq]
  · simp only [Bool.not_eq_true] at hq
    simp only [hq, Bool.false_eq_true, if_false]
    constructor
    · intro h
      split at h
      · exact absurd (Option.some.inj h) (by intro hc; cases hc)
      · split at h
        · exact absurd (Option.some.inj h) (by intro hc; cases hc)
        · exact absurd h (by simp)
    · intro h
      cases h

/-- The classifier answers Repeated exactly when the QR guard does not fire
and the repeated guard does. -/
theorem analyze_eq_repeated_iff (decode_dims : List Nat → Option (Nat × Nat))
    (detect_codes : List Nat → Option Nat) (rules : RuleConfig)
    (task : ImageTask) (total_pages : Nat) :
    analyze_single_image_ret decode_dims detect_codes rules task total_pages =
      some Category.repeated ↔
    qr_rule_hit decode_dims detect_codes rules task = false ∧
      repeated_rule_hit rules task total_pages = true := by
  unfold analyze_single_image_ret
  by_cases hq : qr_rule_hit decode_dims detect_codes rules task
  · simp [hq]
  · simp only [Bool.not_eq_true] at hq
    simp only [hq, Bool.false_eq_true, if_false, true_and]
    by_cases hr : repeated_rule_hit rules task total_pages
    · simp [hr]
    · simp only [Bool.not_eq_true] at hr
      simp only [hr, Bool.false_eq_true, if_false]
      constructor
      · intro h
        split at h
        · exact absurd (Option.some.inj h) (by intro hc; cases hc)
        · exact absurd h (by simp)
      · intro h
        cases h

/-- The classifier answers Corner exactly when neither the QR guard nor the
repeated guard fires and the corners guard does. -/
theorem analyze_eq_corner_iff (decode_dims : List Nat → Option (Nat × Nat))
    (detect_codes : List Nat → Option Nat) (rules : RuleConfig)
    (task : ImageTask) (total_pages : Nat) :
    analyze_single_image_ret decode_dims detect_codes rules task total_pages =
      some Category.corner ↔
    qr_rule_hit decode_dims detect_codes rules task = false ∧
      repeated_rule_hit rules task total_pages = false ∧
      corners_rule_hit rules task = true := by
  unfold analyze_single_image_ret
  by_cases hq : qr_rule_hit decode_dims detect_codes rules task
  · simp [hq]
  · simp only [Bool.not_eq_true] at hq
    simp only [hq, Bool.false_eq_true, if_false, true_and]
    by_cases hr : repeated_rule_hit rules task total_pages
    · simp [hr]
    · simp only [Bool.not_eq_true] at hr
      simp only [hr, Bool.false_eq_true, if_false, true_and]
      by_cases hc : corners_rule_hit rules task
      · simp [hc]
      · simp [hc]

/-- C6: QR gating.  (1) For every image byte payload whose decode reports
width or height below 30 pixels, or an aspect ratio `width / height` outside
the open interval (0.9, 1.1), `is_qr_code` answers false — no barcode scan
can make it match.  (2) In particular a payload decoded as 20 by 20 is never
classified QR by the classifier, for any barcode collaborator and any rule
settings. -/
theorem C6_qr_size_and_aspect_gates :
    (∀ (decode_dims : List Nat → Option (Nat × Nat))
      (detect_codes : List Nat → Option Nat) (b : List Nat) (w h : Nat),
      decode_dims b = some (w, h) →
      (w < 30 ∨ h < 30 ∨ (w : ℚ) / (h : ℚ) ≤ 9 / 10 ∨
        (11 : ℚ) / 10 ≤ (w : ℚ) / (h : ℚ)) →
      is_qr_code decode_dims detect_codes b = false) ∧
    (∀ (decode_dims : List Nat → Option (Nat × Nat))
      (detect_codes : List Nat → Option Nat) (rules : RuleConfig)
      (task : ImageTask) (total_pages : Nat),
      decode_dims task.image_bytes = some (20, 20) →
      analyze_single_image_ret decode_dims detect_codes rules task total_pages ≠
        some Category.qr) := by
  have gate : ∀ (decode_dims : List Nat → Option (Nat × Nat))
      (detect_codes : List Nat → Option Nat) (b : List Nat) (w h : Nat),
      decode_dims b = some (w, h) →
      (w < 30 ∨ h < 30 ∨ (w : ℚ) / (h : ℚ) ≤ 9 / 10 ∨
        (11 : ℚ) / 10 ≤ (w : ℚ) / (h : ℚ)) →
      is_qr_code decode_dims detect_codes b = false := by
    intro decode_dims detect_codes b w h hdec hcond
    simp only [is_qr_code, hdec]
    by_cases hsmall : w < 30 ∨ h < 30
    · simp [hsmall]
    · rw [if_neg hsmall]
      have haspect : ¬ ((9 : ℚ) / 10 < (w : ℚ) / (h : ℚ) ∧
          (w : ℚ) / (h : ℚ) < (11 : ℚ) / 10) := by
        rcases hcond with h1 | h1 | h1 | h1
        · exact absurd (Or.inl h1) hsmall
        · exact absurd (Or.inr h1) hsmall
        · intro hand; exact absurd h1 (not_le.mpr hand.1)
        · intro hand; exact absurd h1 (not_le.mpr hand.2)
      by_cases hz : h = 0
      · simp [hz]
      · rw [if_neg hz, if_pos haspect]
  constructor
  · exact gate
  · intro decode_dims detect_codes rules task total_pages hdec hana
    have hq := (analyze_eq_qr_iff decode_dims detect_codes rules task total_pages).mp hana
    unfold qr_rule_hit at hq
    rw [gate decode_dims detect_codes task.image_bytes 20 20 hdec
      (Or.inl (by norm_num))] at hq
    simp at hq

/-- A decode collaborator that reports every payload as 20 by 20 pixels. -/
def exDims20 : List Nat → Option (Nat × Nat) := fun _ => some (20, 20)

/-- Witness for C6: with a 20-by-20 decode, `is_qr_code` rejects even though
the barcode collaborator reports a decodable code, and the classifier never
answers QR for such a task. -/
theorem C6_witness :
    is_qr_code exDims20 exDetOne exTaskEight.image_bytes = false ∧
    analyze_single_image_ret exDims20 exDetOne exRulesAll exTaskEight 10 ≠
      some Category.qr :=
  ⟨C6_qr_size_and_aspect_gates.1 exDims20 exDetOne exTaskEight.image_bytes 20 20
      rfl (Or.inl (by norm_num)),
    C6_qr_size_and_aspect_gates.2 exDims20 exDetOne exRulesAll exTaskEight 10 rfl⟩

/-- C7: Repeated-rule precondition and threshold.  (1) The classifier answers
Repeated exactly when the QR guard does not fire first, the repeated rule is
active, the document has strictly more than one page, and the image's
page-index set has size at least 0.7 times the total page count.  (2) On a
single-page document the classifier never answers Repeated, regardless of the
match ratio or rule settings. -/
theorem C7_repeated_threshold (decode_dims : List Nat → Option (Nat × Nat))
    (detect_codes : List Nat → Option Nat) (rules : RuleConfig)
    (task : ImageTask) (total_pages : Nat) :
    (analyze_single_image_ret decode_dims detect_codes rules task total_pages =
        some Category.repeated ↔
      qr_rule_hit decode_dims detect_codes rules task = false ∧
        rules.repeated = true ∧ 1 < total_pages ∧
        (total_pages : ℚ) * (7 / 10) ≤ (task.pages.card : ℚ)) ∧
    (total_pages = 1 →
      analyze_single_image_ret decode_dims detect_codes rules task total_pages ≠
        some Category.repeated) := by
  constructor
  · rw [analyze_eq_repeated_iff]
    unfold repeated_rule_hit
    simp [Bool.and_eq_true, decide_eq_true_eq, and_assoc]
  · intro h1 hana
    have h := (analyze_eq_repeated_iff decode_dims detect_codes rules task
      total_pages).mp hana
    unfold repeated_rule_hit at h
    rw [h1] at h
    simp at h

/-- Witness for C7: the task on 8 of 10 pages is classified Repeated when the
rule is active and the QR decode fails; and on a one-page total the very same
task is never classified Repeated. -/
theorem C7_witness :
    analyze_single_image_ret exDimsFail exDetOne exRulesAll exTaskEight 10 =
      some Category.repeated ∧
    analyze_single_image_ret exDimsFail exDetOne exRulesAll exTaskEight 1 ≠
      some Category.repeated := by
  constructor
  · refine (C7_repeated_threshold exDimsFail exDetOne exRulesAll exTaskEight 10).1.mpr
      ⟨exDimsFail_no_qr, rfl, by decide, ?_⟩
    have hc : (exTaskEight.pages.card : ℚ) = 8 := by rfl
    rw [hc]
    norm_num
  · exact (C7_repeated_threshold exDimsFail exDetOne exRulesAll exTaskEight 1).2 rfl

/-- The corner test as the specification words it, for comparison with the
source's test: the placement's bounding box lies entirely within the top-left
margin rectangle (width 25 percent of the page width, height 15 percent of
the page height, anchored at the page's top-left corner), or entirely within
the horizontally mirrored top-right margin rectangle. -/
def bbox_entirely_within_corner_margins (p : Placement) : Prop :=
  (0 ≤ p.x0 ∧ 0 ≤ p.y0 ∧ p.x1 ≤ p.page_w * (25 / 100) ∧
    p.y1 ≤ p.page_h * (15 / 100)) ∨
  (p.page_w - p.page_w * (25 / 100) ≤ p.x0 ∧ 0 ≤ p.y0 ∧ p.x1 ≤ p.page_w ∧
    p.y1 ≤ p.page_h * (15 / 100))

/-- Only the corners rule active. -/
def exRulesCorner : RuleConfig := ⟨false, false, true⟩

/-- A task whose single placement sticks out past the left page edge:
bbox (-10, 0, 50, 50) on a 600 by 800 page. -/
def exTaskOffPage : ImageTask :=
  { xref := 1
    image_bytes := [7]
    pages := {0}
    placements := [⟨0, -10, 0, 50, 50, 600, 800⟩] }

/-- Counterexample to C8 as stated: the source's corner test only bounds the
right and bottom edges (`x1 < margin_x and y1 < margin_y`), so the placement
with bbox (-10, 0, 50, 50) on a 600 by 800 page is classified Corner even
though its bounding box does not lie entirely within either margin rectangle
(it starts 10 units left of the page). -/
theorem C8_counterexample :
    analyze_single_image_ret exDimsFail exDetOne exRulesCorner exTaskOffPage 1 =
      some Category.corner ∧
    ∀ p ∈ exTaskOffPage.placements, ¬ bbox_entirely_within_corner_margins p := by
  constructor
  · refine (analyze_eq_corner_iff exDimsFail exDetOne exRulesCorner exTaskOffPage 1).mpr
      ⟨rfl, rfl, ?_⟩
    simp only [corners_rule_hit, exRulesCorner, exTaskOffPage, List.any_cons,
      List.any_nil, Bool.or_false, Bool.true_and]
    simp only [cornerHit, decide_eq_true_eq]
    left
    norm_num
  · intro p hp
    simp only [exTaskOffPage, List.mem_singleton] at hp
    subst hp
    simp only [bbox_entirely_within_corner_margins]
    push_neg
    constructor
    · intro h0
      norm_num at h0
    · intro h0
      norm_num at h0

/-- C8 (amended): Corner rule.  With the corners rule active and no
higher-priority rule firing, an image is classified Corner exactly when at
least one of its placements satisfies the source's edge test: the bbox's
right edge lies strictly left of the 25-percent margin line and its bottom
edge strictly above the 15-percent margin line (top-left), or its left edge
lies strictly right of the mirrored margin line and its bottom edge strictly
above the 15-percent margin line (top-right).  The left and top edges of the
box are not constrained, so the box need not lie entirely within the margin
rectangles. -/
theorem C8_corner_rule_amended (decode_dims : List Nat → Option (Nat × Nat))
    (detect_codes : List Nat → Option Nat) (rules : RuleConfig)
    (task : ImageTask) (total_pages : Nat) :
    analyze_single_image_ret decode_dims detect_codes rules task total_pages =
      some Category.corner ↔
    qr_rule_hit decode_dims detect_codes rules task = false ∧
      repeated_rule_hit rules task total_pages = false ∧
      rules.corners = true ∧
      ∃ p ∈ task.placements,
        ((p.x1 < p.page_w * (25 / 100) ∧ p.y1 < p.page_h * (15 / 100)) ∨
          (p.x0 > p.page_w - p.page_w * (25 / 100) ∧
            p.y1 < p.page_h * (15 / 100))) := by
  rw [analyze_eq_corner_iff]
  unfold corners_rule_hit
  simp only [Bool.and_eq_true, List.any_eq_true, cornerHit, decide_eq_true_eq,
    and_assoc]

/-- Witness for C8: with only the corners rule active, the task whose single
placement has bbox (0, 0, 50, 50) on a 600 by 800 page (margins 150 by 120)
is classified Corner. -/
theorem C8_witness :
    analyze_single_image_ret exDimsFail exDetOne exRulesCorner exTaskEight 10 =
      some Category.corner := by
  refine (C8_corner_rule_amended exDimsFail exDetOne exRulesCorner exTaskEight 10).mpr
    ⟨rfl, rfl, rfl, ⟨0, 0, 0, 50, 50, 600, 800⟩, by simp [exTaskEight], ?_⟩
  left
  norm_num

/-- C9: Per-image failure isolation.  (1) A decode failure in the QR check
(`Image.open` raising, modelled by `decode_dims` returning `none`) yields
"no QR match", not an error.  (2) A failure of the barcode scan itself
(modelled by `detect_codes` returning `none`) likewise yields "no QR match".
(3) When the decode fails, classification of the image still proceeds through
the remaining rules exactly as if the QR rule were inactive — the per-image
unit always returns an `Option Category` and never propagates an error. -/
theorem C9_per_image_failure_isolated :
    (∀ (decode_dims : List Nat → Option (Nat × Nat))
      (detect_codes : List Nat → Option Nat) (b : List Nat),
      decode_dims b = none → is_qr_code decode_dims detect_codes b = false) ∧
    (∀ (decode_dims : List Nat → Option (Nat × Nat))
      (detect_codes : List Nat → Option Nat) (b : List Nat),
      detect_codes b = none → is_qr_code decode_dims detect_codes b = false) ∧
    (∀ (decode_dims : List Nat → Option (Nat × Nat))
      (detect_codes : List Nat → Option Nat) (rules : RuleConfig)
      (task : ImageTask) (total_pages : Nat),
      decode_dims task.image_bytes = none →
      analyze_single_image_ret decode_dims detect_codes rules task total_pages =
        analyze_single_image_ret decode_dims detect_codes
          { rules with qr := false } task total_pages) := by
  refine ⟨?_, ?_, ?_⟩
  · intro decode_dims detect_codes b hdec
    simp [is_qr_code, hdec]
  · intro decode_dims detect_codes b hdet
    unfold is_qr_code
    split
    · rfl
    next w h hdec =>
      rw [hdet]
      split
      · rfl
      · split
        · rfl
        · split
          · rfl
          · rfl
  · intro decode_dims detect_codes rules task total_pages hdec
    have hiq : is_qr_code decode_dims detect_codes task.image_bytes = false := by
      simp [is_qr_code, hdec]
    unfold analyze_single_image_ret qr_rule_hit
    rw [hiq]
    simp only [Bool.and_false, Bool.false_and, Bool.false_eq_true, if_false]
    rfl

/-- A barcode collaborator whose scan always raises. -/
def exDetFail : List Nat → Option Nat := fun _ => none

/-- Witness for C9: with a failing decode the QR check answers false; with a
failing barcode scan it answers false; and with a failing decode the
classifier result coincides with the qr-rule-disabled result. -/
theorem C9_witness :
    is_qr_code exDimsFail exDetOne exTaskEight.image_bytes = false ∧
    is_qr_code exDims40 exDetFail exTaskEight.image_bytes = false ∧
    analyze_single_image_ret exDimsFail exDetOne exRulesAll exTaskEight 10 =
      analyze_single_image_ret exDimsFail exDetOne
        { exRulesAll with qr := false } exTaskEight 10 :=
  ⟨C9_per_image_failure_isolated.1 exDimsFail exDetOne _ rfl,
    C9_per_image_failure_isolated.2.1 exDims40 exDetFail _ rfl,
    C9_per_image_failure_isolated.2.2 exDimsFail exDetOne exRulesAll exTaskEight 10 rfl⟩

/-- What one document's pipeline-plus-save run does, as seen by the automatic
batch loop of `MainApp`: either the analysis fails (the runner calls
`_on_error`, e.g. the document cannot be opened), or it succeeds and
`_on_result_auto` receives the union of matched xrefs plus, when that set is
non-empty, the outcome of `FileSaver.auto_save` (`some (out, removed, pages)`
on success, `none` when saving raises). -/
inductive PipelineOutcome
  | failure
  | success (xrefs : Finset Nat) (save : Option (Nat × Nat × List Nat))

/-- One entry of `MainApp.auto_report`: the source document id, the output id
(`none` models the empty string recorded on skip or save failure), the
removed count and the affected page list. -/
structure ReportEntry where
  file : Nat
  out : Option Nat
  removed : Nat
  pages : List Nat
  deriving DecidableEq

/-- `MainApp._on_result_auto` for one document in automatic mode: an empty
xref set records a skip entry; otherwise a successful save records its
result and a raising save records a failure entry with zero removals. -/
def on_result_auto (file : Nat) (xrefs : Finset Nat)
    (save : Option (Nat × Nat × List Nat)) (report : List ReportEntry) :
    List ReportEntry :=
  if xrefs = ∅ then report ++ [⟨file, none, 0, []⟩]
  else
    match save with
    | some (out, removed, pages) => report ++ [⟨file, some out, removed, pages⟩]
    | none => report ++ [⟨file, none, 0, []⟩]

/-- One step of the automatic batch loop: `_on_result_auto` records an entry
and continues via `_auto_next`; `_on_error` shows an error dialog and
continues via `_auto_next` without touching `auto_report`. -/
def auto_step (report : List ReportEntry) (doc : Nat × PipelineOutcome) :
    List ReportEntry :=
  match doc.2 with
  | PipelineOutcome.failure => report
  | PipelineOutcome.success xrefs save => on_result_auto doc.1 xrefs save report

/-- Whether the document's pipeline run failed. -/
def PipelineOutcome.isFailure : PipelineOutcome → Bool
  | PipelineOutcome.failure => true
  | PipelineOutcome.success _ _ => false

/-- The automatic batch run over a queue of documents (`start_auto` then the
`_auto_next` loop, starting from the empty `auto_report`). -/
def auto_batch (queue : List (Nat × PipelineOutcome)) : List ReportEntry :=
  queue.foldl auto_step []

/-- `_on_result_auto` records exactly one entry, for the processed file. -/
theorem on_result_auto_files (file : Nat) (xrefs : Finset Nat)
    (save : Option (Nat × Nat × List Nat)) (report : List ReportEntry) :
    (on_result_auto file xrefs save report).map ReportEntry.file =
      report.map ReportEntry.file ++ [file] := by
  unfold on_result_auto
  split
  · simp
  · split <;> simp

/-- The batch fold, started from any report prefix, appends one entry per
non-failing document, in queue order. -/
theorem auto_batch_foldl_files (queue : List (Nat × PipelineOutcome)) :
    ∀ report : List ReportEntry,
      ((queue.foldl auto_step report).map ReportEntry.file) =
        report.map ReportEntry.file ++
          (queue.filter (fun doc => !doc.2.isFailure)).map Prod.fst := by
  induction queue with
  | nil => intro report; simp
  | cons doc t ih =>
    intro report
    obtain ⟨file, outcome⟩ := doc
    cases outcome with
    | failure =>
      simp only [List.foldl_cons, auto_step, List.filter_cons]
      rw [ih]
      simp [PipelineOutcome.isFailure]
    | success xrefs save =>
      simp only [List.foldl_cons, auto_step, List.filter_cons]
      rw [ih]
      simp [PipelineOutcome.isFailure, on_result_auto_files]

/-- C4 (amended): batch isolation in automatic mode.  For every queue of
documents, every document whose pipeline run does not fail — including every
document after a failing one — contributes exactly one recorded outcome to
the run report, in queue order, and a failing document contributes none: the
report's file list equals the queue's non-failing file list, and the report
length is the number of non-failing documents.  No single document's failure
halts the batch, but the failing document's outcome is surfaced only as an
error dialog and is never recorded in the report. -/
theorem C4_batch_isolation (queue : List (Nat × PipelineOutcome)) :
    (auto_batch queue).map ReportEntry.file =
      (queue.filter (fun doc => !doc.2.isFailure)).map Prod.fst ∧
    (auto_batch queue).length =
      queue.countP (fun doc => !doc.2.isFailure) := by
  have h := auto_batch_foldl_files queue []
  simp only [List.map_nil, List.nil_append] at h
  have h1 : auto_batch queue = queue.foldl auto_step [] := rfl
  refine ⟨by rw [h1]; exact h, ?_⟩
  rw [h1, List.countP_eq_length_filter]
  have hlen := congrArg List.length h
  simpa [List.length_map] using hlen

/-- Counterexample to C4 as stated: a queue of 2 documents whose first
pipeline run fails produces only 1 recorded outcome (for the second
document), not 2 — the failure of document 1 is not recorded. -/
theorem C4_counterexample :
    auto_batch [(0, PipelineOutcome.failure), (1, PipelineOutcome.success ∅ none)] =
      [⟨1, none, 0, []⟩] ∧
    (auto_batch [(0, PipelineOutcome.failure),
      (1, PipelineOutcome.success ∅ none)]).length ≠ 2 := by
  refine ⟨by decide, by decide⟩

/-- The page loop of `PdfImageProcessor.save_with_deletions`, carrying the
current 0-based page number: per page, `delete_image` fires once for each
image-info entry whose xref is in the deletion set (incrementing
`removed_count`), and the 1-based page number is added to `affected_pages`
when at least one entry fired on that page. -/
def delete_scan (dels : Finset Nat) : Nat → List PdfPage → Nat × Finset Nat
  | _, [] => (0, ∅)
  | page_num, pg :: rest =>
    let here := pg.images.countP (fun im => decide (im.xref ∈ dels))
    let r := delete_scan dels (page_num + 1) rest
    (here + r.1, if 0 < here then insert (page_num + 1) r.2 else r.2)

/-- `PdfImageProcessor.save_with_deletions(save_path, xrefs_to_delete)`:
walk all pages from page 0 and return `(removed_count, affected_pages)`.
(The writing of the mutated document to disk is the external save
collaborator and is not part of the returned value.) -/
def save_with_deletions (d : PdfDoc) (dels : Finset Nat) : Nat × Finset Nat :=
  delete_scan dels 0 d.pages

/-- The removed count of the page loop is the total number of matching
image-info entries over all scanned pages. -/
theorem delete_scan_fst (dels : Finset Nat) :
    ∀ (page_num : Nat) (ps : List PdfPage),
      (delete_scan dels page_num ps).1 =
        (ps.map (fun pg => pg.images.countP (fun im => decide (im.xref ∈ dels)))).sum := by
  intro page_num ps
  induction ps generalizing page_num with
  | nil => rfl
  | cons pg rest ih =>
    simp only [delete_scan, List.map_cons, List.sum_cons]
    rw [ih]

/-- Membership in the affected-pages set of the page loop: exactly the
1-based numbers (shifted by the starting page number) of scanned pages with
at least one matching entry. -/
theorem delete_scan_snd_mem (dels : Finset Nat) :
    ∀ (page_num : Nat) (ps : List PdfPage) (n : Nat),
      n ∈ (delete_scan dels page_num ps).2 ↔
        ∃ j, ∃ h : j < ps.length, n = page_num + j + 1 ∧
          ∃ im ∈ (ps.get ⟨j, h⟩).images, im.xref ∈ dels := by
  intro page_num ps
  induction ps generalizing page_num with
  | nil =>
    intro n
    simp [delete_scan]
  | cons pg rest ih =>
    intro n
    simp only [delete_scan]
    constructor
    · intro hn
      by_cases hhere : 0 < pg.images.countP (fun im => decide (im.xref ∈ dels))
      · rw [if_pos hhere] at hn
        rcases Finset.mem_insert.mp hn with h | h
        · obtain ⟨im, him, hdel⟩ := List.countP_pos_iff.mp hhere
          refine ⟨0, Nat.succ_pos _, by omega, im, him, of_decide_eq_true hdel⟩
        · obtain ⟨j, hj, hnj, im, him, hdel⟩ := (ih (page_num + 1) n).mp h
          refine ⟨j + 1, ?_, ?_, im, him, hdel⟩
          · simpa using Nat.succ_lt_succ hj
          · omega
      · rw [if_neg hhere] at hn
        obtain ⟨j, hj, hnj, im, him, hdel⟩ := (ih (page_num + 1) n).mp hn
        refine ⟨j + 1, ?_, ?_, im, him, hdel⟩
        · simpa using Nat.succ_lt_succ hj
        · omega
    · rintro ⟨j, hj, hnj, im, him, hdel⟩
      cases j with
      | zero =>
        have hhere : 0 < pg.images.countP (fun im => decide (im.xref ∈ dels)) :=
          List.countP_pos_iff.mpr ⟨im, him, decide_eq_true hdel⟩
        rw [if_pos hhere]
        exact Finset.mem_insert.mpr (Or.inl (by omega))
      | succ j' =>
        have hj' : j' < rest.length := by
          simp only [List.length_cons] at hj
          omega
        have hmem : n ∈ (delete_scan dels (page_num + 1) rest).2 :=
          (ih (page_num + 1) n).mpr ⟨j', hj', by omega, im, him, hdel⟩
        by_cases hhere : 0 < pg.images.countP (fun im => decide (im.xref ∈ dels))
        · rw [if_pos hhere]
          exact Finset.mem_insert.mpr (Or.inr hmem)
        · rw [if_neg hhere]
          exact hmem

/-- C10: Save postcondition.  For every document and deletion set,
`save_with_deletions` returns (1) a removed count equal to the total number
of image placements, across all pages, whose xref lies in the deletion set;
(2) an affected-pages set containing exactly the 1-based numbers of the pages
with at least one such placement; and (3) the pair `(0, empty)` when the
deletion set matches no placement. -/
theorem C10_save_with_deletions_postcondition (d : PdfDoc) (dels : Finset Nat) :
    (save_with_deletions d dels).1 =
      (d.pages.map (fun pg =>
        pg.images.countP (fun im => decide (im.xref ∈ dels)))).sum ∧
    (∀ n, n ∈ (save_with_deletions d dels).2 ↔
      ∃ j, ∃ h : j < d.pages.length, n = j + 1 ∧
        ∃ im ∈ (d.pages.get ⟨j, h⟩).images, im.xref ∈ dels) ∧
    ((∀ pg ∈ d.pages, ∀ im ∈ pg.images, im.xref ∉ dels) →
      save_with_deletions d dels = (0, ∅)) := by
  have hfst := delete_scan_fst dels 0 d.pages
  have hmem : ∀ n, n ∈ (delete_scan dels 0 d.pages).2 ↔
      ∃ j, ∃ h : j < d.pages.length, n = j + 1 ∧
        ∃ im ∈ (d.pages.get ⟨j, h⟩).images, im.xref ∈ dels := by
    intro n
    simpa using delete_scan_snd_mem dels 0 d.pages n
  refine ⟨hfst, hmem, ?_⟩
  intro hnone
  have h1 : (delete_scan dels 0 d.pages).1 = 0 := by
    rw [hfst]
    apply List.sum_eq_zero
    intro c hc
    obtain ⟨pg, hpg, hcc⟩ := List.mem_map.mp hc
    rw [← hcc, List.countP_eq_zero]
    intro im him
    simp only [decide_eq_true_eq]
    exact hnone pg hpg im him
  have h2 : (delete_scan dels 0 d.pages).2 = ∅ := by
    apply Finset.eq_empty_iff_forall_not_mem.mpr
    intro n hn
    obtain ⟨j, hj, hnj, im, him, hdel⟩ := (hmem n).mp hn
    exact hnone _ (List.get_mem _ _ _) im him hdel
  show delete_scan dels 0 d.pages = (0, ∅)
  exact Prod.ext h1 h2

/-- A two-page document with three placements of xref 1 and one of xref 4. -/
def exDocSave : PdfDoc :=
  { pages := [⟨[⟨1, 0, 0, 10, 10⟩, ⟨4, 0, 0, 10, 10⟩, ⟨1, 0, 0, 10, 10⟩], 100, 100⟩,
      ⟨[⟨1, 0, 0, 10, 10⟩], 100, 100⟩]
    extract := fun x => if x = 1 then some [7] else if x = 4 then some [8] else none }

/-- Witness for C10: on the concrete two-page document, deleting `{9}` (which
matches no placement) yields `(0, empty)`, and the removed count for deleting
`{1}` is 3 (all three placements of xref 1). -/
theorem C10_witness :
    save_with_deletions exDocSave {9} = (0, ∅) ∧
    (save_with_deletions exDocSave {1}).1 = 3 :=
  ⟨(C10_save_with_deletions_postcondition exDocSave {9}).2.2 (by decide),
    by rw [(C10_save_with_deletions_postcondition exDocSave {1}).1]; decide⟩
